import Mathlib

/-!
# Verification of the zStock market-data acquisition and caching engine

A shallow embedding, in Lean 4, of the parts of the zStock repository that
its natural-language specification talks about:

* `src/utils/stock_utils.py` — market-prefix routing (`get_stock_type`);
* `src/services/fallback.py` — the fallback executor (`FallbackExecutor.execute`);
* `src/services/local_data_service.py` — the SQLite-backed local bar store
  (`save_stock_data`, `mark_full_sync_completed`, `is_full_sync_completed`,
  `get_stock_data`, `get_stock_data_smart`, `get_last_trading_day`,
  `_merge_realtime_data`, `_fetch_full_history`);
* `src/services/background_tasks.py` — the deduplicating priority work queue
  (`BackgroundTaskQueue.submit` / `_worker`).

Conventions used throughout the embedding:

* Calendar days are integers (or naturals) counting days from an epoch chosen
  so that day `0` is a Monday; `d.emod 7` is then Python's `date.weekday()`
  (0 = Monday … 6 = Sunday).
* Wall-clock instants are naturals counting minutes from the epoch midnight:
  for an instant `now`, `now / 1440` is its calendar day and `now % 1440` its
  minute of the day.  `'YYYY-MM-DD'` strings compare exactly like the day
  numbers they encode, so string comparisons in the source become numeric
  comparisons here.
* Prices and volumes are rationals; none of the verified operations performs
  arithmetic on them, they are opaque payloads.
* Fallible Python code is embedded with `Option`/`Except`; a raised and
  caught exception is an `Except.error` value.
-/

namespace ZStock

/-! ## Market routing — `src/utils/stock_utils.py`, `get_stock_type`

A pure digit code is embedded as its list of decimal digits (most significant
first).  The source first checks the `sh`/`sz`/`zz`/`bj` letter-prefix branch,
which cannot fire on a pure digit code and is therefore absent here; the digit
rules below are transcribed from lines 36-46 of the file.  `List.isPrefixOf`
is Python's `str.startswith` on the digit encoding. -/

/-- The three A-share market tags returned by `get_stock_type`. -/
inductive Market where
  | sh : Market
  | sz : Market
  | bj : Market
deriving DecidableEq, Repr

/-- Embedding of `get_stock_type` for pure digit codes
(`src/utils/stock_utils.py`, lines 26-46).  The Beijing prefixes
`43/83/87/92` are tested first, then the Shanghai prefixes
`5/6/7/9/110/113/118/132/204`; everything else is Shenzhen.
The `if not code` guard of the source maps `[]` to `sz`. -/
def get_stock_type (code : List Nat) : Market :=
  if code = [] then Market.sz
  else if [4, 3].isPrefixOf code || [8, 3].isPrefixOf code ||
          [8, 7].isPrefixOf code || [9, 2].isPrefixOf code then Market.bj
  else if [5].isPrefixOf code || [6].isPrefixOf code ||
          [7].isPrefixOf code || [9].isPrefixOf code ||
          [1, 1, 0].isPrefixOf code || [1, 1, 3].isPrefixOf code ||
          [1, 1, 8].isPrefixOf code || [1, 3, 2].isPrefixOf code ||
          [2, 0, 4].isPrefixOf code then Market.sh
  else Market.sz

/-! ## Fallback executor — `src/services/fallback.py`, `FallbackExecutor.execute`

A provider attempt either raises (`Except.error`) or returns a Python value;
`Option` embeds Python's `None`.  The loop of lines 59-76 returns the first
result that `is not None`; an exception is caught and logged; exhaustion
returns `None`. -/

/-- Embedding of `FallbackExecutor.execute` (`src/services/fallback.py`,
lines 52-76).  Each attempt is `Except.error e` when the provider raises and
`Except.ok r` with `r : Option T` when it returns (Python `None` is
`Option.none`).  The source's success test is `result is not None`, nothing
else: the first `Except.ok (some v)` wins. -/
def execute {T : Type} : List (Except String (Option T)) → Option T
  | [] => none
  | Except.error _ :: rest => execute rest
  | Except.ok none :: rest => execute rest
  | Except.ok (some v) :: _ => some v

/-! ## Local store — `src/services/local_data_service.py`

The claims under verification are all per-symbol (every SQL statement involved
filters on `code = ?`), so the state carries the rows of one symbol.

`stock_history` rows become `Bar`s; the symbol's `sync_log` row becomes an
`Option SyncRow` (`none` when no row exists for the symbol yet). -/

/-- One `stock_history` row (one OHLCV bar): `date` is a day number, prices
and volume are opaque rationals. -/
structure Bar where
  date : Nat
  openPrice : ℚ
  high : ℚ
  low : ℚ
  close : ℚ
  volume : ℚ
deriving DecidableEq, Repr

/-- The symbol's `sync_log` row
(`code, last_sync_date, last_data_date, record_count, updated_at,
full_sync_completed`).  `last_sync_date` and `updated_at` are minute
timestamps, `last_data_date` a day number. -/
structure SyncRow where
  last_sync_date : Nat
  last_data_date : Nat
  record_count : Nat
  updated_at : Nat
  full_sync_completed : Bool
deriving DecidableEq, Repr

/-- The SQLite state visible to one symbol: its `stock_history` rows and its
`sync_log` row, if any. -/
structure StoreState where
  history : List Bar
  syncLog : Option SyncRow
deriving DecidableEq, Repr

/-- `df.drop_duplicates(subset=['code','date'])` with pandas' default
`keep='first'`: keep the first row of each date
(`src/services/local_data_service.py`, line 121). -/
def dedupByDate : List Bar → List Nat → List Bar
  | [], _ => []
  | b :: rest, seen =>
    if b.date ∈ seen then dedupByDate rest seen
    else b :: dedupByDate rest (b.date :: seen)

/-- `df['date'].max()` over a nonempty frame, embedded as a fold
(the empty case never reaches the `.max()` call in the source). -/
def maxDate (l : List Bar) : Nat := (l.map Bar.date).foldr max 0

/-- The today-repair step of `save_stock_data` (lines 133-140): when
`today` occurs among both the existing dates and the (deduplicated) input
dates, the existing rows dated `today` are deleted — no other condition
guards the delete; otherwise the stored rows are untouched. -/
def upsertHist1 (today : Nat) (df' : List Bar) (hist : List Bar) : List Bar :=
  if today ∈ hist.map Bar.date ∧ today ∈ df'.map Bar.date then
    hist.filter (fun b => b.date ≠ today)
  else hist

/-- The insert filter of `save_stock_data` (line 143): keep the input rows
whose date is not already present (after the today-repair step, which also
removed `today` from the existing-date set). -/
def upsertNewData (df' hist1 : List Bar) : List Bar :=
  df'.filter (fun b => b.date ∉ hist1.map Bar.date)

/-- Embedding of `LocalDataService.save_stock_data`
(`src/services/local_data_service.py`, lines 97-172) at instant `now`
(minutes since the epoch; `now / 1440` is Python's
`datetime.now().strftime('%Y-%m-%d')`, `today`).  Steps, in source order:

1. empty input returns 0 (line 108);
2. the input frame is deduplicated by date, first row wins (line 121);
3. the existing dates of the symbol are read (lines 128-131);
4. `upsertHist1` performs the today-delete of lines 133-140;
5. `upsertNewData` drops rows whose date is already present (line 143);
   if nothing is left the function returns 0 (lines 145-147);
6. the remaining rows are appended (line 151);
7. the `sync_log` row is rewritten with `INSERT OR REPLACE` listing only
   the columns `code, last_sync_date, last_data_date, record_count,
   updated_at` (lines 158-163): the replacing row takes the table default
   `0` for the unlisted `full_sync_completed` column, and
   `last_data_date` is `df['date'].max()` of the deduplicated *input*
   frame, not of the stored rows.

The returned pair is (number of inserted rows, new state). -/
def save_stock_data (now : Nat) (df : List Bar) (s : StoreState) : Nat × StoreState :=
  if df = [] then (0, s)
  else
    let df' := dedupByDate df []
    let today := now / 1440
    let hist1 := upsertHist1 today df' s.history
    let newData := upsertNewData df' hist1
    if newData = [] then (0, { s with history := hist1 })
    else
      (newData.length,
       { history := hist1 ++ newData,
         syncLog := some
           { last_sync_date := now,
             last_data_date := maxDate df',
             record_count := (hist1.map Bar.date).dedup.length + newData.length,
             updated_at := now,
             full_sync_completed := false } })

/-- Embedding of `LocalDataService.is_full_sync_completed`
(`src/services/local_data_service.py`, lines 351-361): true when a
`sync_log` row exists for the symbol and its `full_sync_completed` is 1. -/
def is_full_sync_completed (s : StoreState) : Bool :=
  match s.syncLog with
  | some r => r.full_sync_completed
  | none => false

/-- Embedding of `LocalDataService.mark_full_sync_completed`
(`src/services/local_data_service.py`, lines 363-372):
`UPDATE sync_log SET full_sync_completed = 1 WHERE code = ?` updates the
symbol's row when it exists and does nothing otherwise. -/
def mark_full_sync_completed (s : StoreState) : StoreState :=
  { s with syncLog := s.syncLog.map (fun r => { r with full_sync_completed := true }) }

/-! ## Reading bars and the warm-path gate — `get_stock_data`,
`get_stock_data_smart` -/

/-- Insertion step of the `ORDER BY date DESC` sort. -/
def insertDesc (b : Bar) : List Bar → List Bar
  | [] => [b]
  | c :: rest => if c.date ≤ b.date then b :: c :: rest else c :: insertDesc b rest

/-- `ORDER BY date DESC` on the symbol's rows. -/
def sortDesc : List Bar → List Bar
  | [] => []
  | b :: rest => insertDesc b (sortDesc rest)

/-- Embedding of `LocalDataService.get_stock_data`
(`src/services/local_data_service.py`, lines 174-207):
`SELECT … ORDER BY date DESC LIMIT days`, `None` when empty, otherwise
re-sorted ascending. -/
def get_stock_data (s : StoreState) (days : Nat) : Option (List Bar) :=
  let rows := (sortDesc s.history).take days
  if rows = [] then none else some rows.reverse

/-- The completeness threshold `int(days * DATA_COMPLETENESS_RATIO)` with the
0.8 constant of `src/services/data_config.py`, line 21.  For every window
size at issue the truncated double product equals ⌊4·days/5⌋ exactly: the
closest double to 4/5 exceeds it by 1/(5·2^52), so the product never rounds
below an exact multiple of 1/5, and the fractional parts 0.2/0.4/0.6/0.8 are
far beyond the rounding error. -/
def completenessThreshold (days : Nat) : Nat := days * 4 / 5

/-- The sufficiency threshold as the specification words it:
`⌈0.8·N⌉` bars.  Used only to compare the specification against the code. -/
def specCeilThreshold (days : Nat) : Nat := (days * 4 + 4) / 5

/-- The warm-path gate of `LocalDataService.get_stock_data_smart`
(`src/services/local_data_service.py`, lines 434-437):
`local_data is not None and len(local_data) >= int(days * 0.8)`.
When it is true the service returns the local bars without any synchronous
provider fetch. -/
def smartWarmPath (s : StoreState) (days : Nat) : Bool :=
  match get_stock_data s days with
  | none => false
  | some l => completenessThreshold days ≤ l.length

/-! ## Last trading day — `LocalDataService.get_last_trading_day`
(`src/services/local_data_service.py`, lines 308-327)

The Python `while target.weekday() >= 5` loop always terminates within two
iterations; it is embedded with a fuel of 7, which the closed-form lemma
below shows to be more than enough. -/

/-- The weekend-skipping loop `while target.weekday() >= 5: target -= 1`,
with explicit fuel.  `d % 7` is `date.weekday()` under the day-0-is-Monday
epoch. -/
def skipWeekendFuel : Nat → Int → Int
  | 0, d => d
  | fuel + 1, d => if 5 ≤ d % 7 then skipWeekendFuel fuel (d - 1) else d

/-- Embedding of `LocalDataService.get_last_trading_day` at the instant
(day, hour, minute).  Lines 318-321: before 15:30 the starting point is
yesterday, from 15:30 on it is today; lines 324-325 then skip the weekend
backwards. -/
def get_last_trading_day (day : Int) (hour minute : Nat) : Int :=
  let target := if hour < 15 ∨ (hour = 15 ∧ minute < 30) then day - 1 else day
  skipWeekendFuel 7 target

/-! ## Live fusion — `LocalDataService._merge_realtime_data`
(`src/services/local_data_service.py`, lines 570-619)

The function runs under `try/except`: any exception inside the block is
caught at line 616 and the input frame is returned unchanged.  At line 598 it
calls `service.get_realtime_with_fallback(code)` on the
`RealtimeQuotationService` singleton — but that class
(`src/services/realtime_quotation_service.py`, lines 335-589) defines no
attribute of that name (its methods are `get_realtime`,
`get_market_snapshot`, `get_stock_codes`, `get_intraday`,
`_build_intraday_response`, `_load_stock_codes`, `stock_count`), and the name
appears nowhere else in the repository, so Python's attribute lookup raises
`AttributeError` there.  The lookup is embedded as an `Option` holding the
method when it exists; its value in this code base is `none`. -/

/-- A live quote as `_merge_realtime_data` consumes it: the `open`, `high`,
`low`, `now`, `volume` and `turnover` fields of the quote map. -/
structure Quote where
  openPrice : ℚ
  high : ℚ
  low : ℚ
  now : ℚ
  volume : ℚ
  turnover : ℚ
deriving DecidableEq, Repr

/-- The attribute lookup `service.get_realtime_with_fallback` on
`RealtimeQuotationService`: `some` the bound method when the class defines
it, `none` when the lookup raises `AttributeError`.  No class of the
repository defines `get_realtime_with_fallback` (the only occurrence of the
name is the call site itself), so the lookup fails. -/
def lookupGetRealtimeWithFallback : Option (String → Option Quote) := none

/-- The synthetic today row built at lines 604-611:
`(today, open, high, low, now, volume or turnover)`. -/
def syntheticBar (today : Nat) (q : Quote) : Bar :=
  { date := today,
    openPrice := q.openPrice,
    high := q.high,
    low := q.low,
    close := q.now,
    volume := if q.volume ≠ 0 then q.volume else q.turnover }

/-- Embedding of `LocalDataService._merge_realtime_data` at day `today` with
session flag `trading` (`is_trading_time()`).  Control flow, in source
order: outside a session return the input (line 584); inside the `try`
block, an empty frame makes `data['date'].max().strftime(…)` raise and the
input is returned (line 616); when the last date already reaches today the
input is returned (lines 593-594); otherwise the quote call is attempted —
its attribute lookup fails in this code base, the `AttributeError` is caught
and the input is returned; the remaining arms transcribe lines 600-613 for
completeness. -/
def merge_realtime_data (trading : Bool) (today : Nat) (code : String)
    (data : List Bar) : List Bar :=
  if !trading then data
  else
    match (data.map Bar.date).max? with
    | none => data
    | some lastDate =>
      if today ≤ lastDate then data
      else
        match lookupGetRealtimeWithFallback with
        | none => data
        | some method =>
          match method code with
          | none => data
          | some q => data ++ [syntheticBar today q]

/-! ## Provider ordering — `get_stock_data_smart` cold path and
`_fetch_full_history`

Each provider attempt is recorded as the pair (provider, days asked for); an
oracle `Provider → Nat → Option (List Bar)` stands for the network. -/

/-- The bar providers of `local_data_service.py`. -/
inductive Provider where
  | tencent : Provider
  | eastmoney : Provider
  | akshare : Provider
deriving DecidableEq, Repr

/-- `MAX_RETRIES` of `src/services/data_config.py`, line 9. -/
def MAX_RETRIES : Nat := 3

/-- Success test of the cold path: `initial_data is not None and not
initial_data.empty`. -/
def fetchNonEmpty (oracle : Provider → Nat → Option (List Bar))
    (p : Provider) (d : Nat) : Option (List Bar) :=
  match oracle p d with
  | some l => if l = [] then none else some l
  | none => none

/-- The Tencent retry loop of the cold path
(`src/services/local_data_service.py`, lines 472-478): up to `n` identical
attempts, stopping at the first non-empty result.  Returns the result and
the attempt log. -/
def tencentRetryLoop (oracle : Provider → Nat → Option (List Bar))
    (days : Nat) : Nat → Option (List Bar) × List (Provider × Nat)
  | 0 => (none, [])
  | n + 1 =>
    match fetchNonEmpty oracle Provider.tencent days with
    | some l => (some l, [(Provider.tencent, days)])
    | none =>
      let (r, log) := tencentRetryLoop oracle days n
      (r, (Provider.tencent, days) :: log)

/-- Embedding of the cold/insufficient path of
`LocalDataService.get_stock_data_smart`
(`src/services/local_data_service.py`, lines 466-495): Tencent up to
`MAX_RETRIES` times with the requested `days`, then Eastmoney with
`min(days, 3000)`, then AkShare with `days`.  Returns the fetched data (if
any) together with the ordered list of attempts made. -/
def coldPathFetch (oracle : Provider → Nat → Option (List Bar))
    (days : Nat) : Option (List Bar) × List (Provider × Nat) :=
  let (r1, log1) := tencentRetryLoop oracle days MAX_RETRIES
  match r1 with
  | some l => (some l, log1)
  | none =>
    let log2 := log1 ++ [(Provider.eastmoney, min days 3000)]
    match fetchNonEmpty oracle Provider.eastmoney (min days 3000) with
    | some l => (some l, log2)
    | none =>
      let log3 := log2 ++ [(Provider.akshare, days)]
      match fetchNonEmpty oracle Provider.akshare days with
      | some l => (some l, log3)
      | none => (none, log3)

/-- Embedding of `LocalDataService._fetch_full_history`
(`src/services/local_data_service.py`, lines 622-663).  Its success test is
`df is not None` (no emptiness check).  For `days > 640`: AkShare with
`days`, then Tencent with 640; otherwise Tencent with `days`, then AkShare
with `days`. -/
def fetchFullHistory (oracle : Provider → Nat → Option (List Bar))
    (days : Nat) : Option (List Bar) × List (Provider × Nat) :=
  if 640 < days then
    match oracle Provider.akshare days with
    | some df => (some df, [(Provider.akshare, days)])
    | none =>
      match oracle Provider.tencent 640 with
      | some df => (some df, [(Provider.akshare, days), (Provider.tencent, 640)])
      | none => (none, [(Provider.akshare, days), (Provider.tencent, 640)])
  else
    match oracle Provider.tencent days with
    | some df => (some df, [(Provider.tencent, days)])
    | none =>
      match oracle Provider.akshare days with
      | some df => (some df, [(Provider.tencent, days), (Provider.akshare, days)])
      | none => (none, [(Provider.tencent, days), (Provider.akshare, days)])

/-! ## Work queue — `src/services/background_tasks.py`, `BackgroundTaskQueue`

A queued task is its heap key `(priority, counter)` plus its `task_name`;
function payloads play no role in the deduplication claim, execution is
abstracted to a success flag.  The worker's life cycle splits into `dequeue`
(the `self._queue.get(...)` of line 66 — the name stays in the pending set
while the task runs) and `complete` (the `finally` block of lines 89-93,
which discards the name whether the call succeeded or raised). -/

/-- A queue entry `(priority, counter, task_name)`; `heapq` orders these
tuples lexicographically and counters are unique, so the payload is never
compared. -/
structure Task where
  priority : Nat
  counter : Nat
  name : String
deriving DecidableEq, Repr

/-- The state of `BackgroundTaskQueue`: the pending-name set, the priority
queue, the submission counter and the two statistics counters. -/
structure TaskQueue where
  pending : List String
  queued : List Task
  counter : Nat
  completed : Nat
  failed : Nat
deriving DecidableEq, Repr

/-- The initial state built by `BackgroundTaskQueue.__init__`. -/
def TaskQueue.empty : TaskQueue :=
  { pending := [], queued := [], counter := 0, completed := 0, failed := 0 }

/-- Embedding of `BackgroundTaskQueue.submit`
(`src/services/background_tasks.py`, lines 98-131): a name already in
`_pending_tasks` is dropped and the state is unchanged; otherwise the name
is added, the counter incremented, and `(priority, counter, data)` pushed. -/
def submit (priority : Nat) (name : String) (q : TaskQueue) : TaskQueue :=
  if name ∈ q.pending then q
  else
    { q with
      pending := name :: q.pending,
      counter := q.counter + 1,
      queued := q.queued ++ [{ priority := priority, counter := q.counter + 1, name := name }] }

/-- Smallest-first heap pop on the `(priority, counter)` key, as
`queue.PriorityQueue.get` performs it. -/
def popMin : List Task → Option (Task × List Task)
  | [] => none
  | t :: rest =>
    match popMin rest with
    | none => some (t, [])
    | some (m, rest') =>
      if t.priority < m.priority ∨ (t.priority = m.priority ∧ t.counter ≤ m.counter) then
        some (t, rest)
      else some (m, t :: rest')

/-- The worker's `self._queue.get(...)` (line 66): the minimal entry leaves
the queue and starts running; its name remains pending until completion. -/
def dequeue (q : TaskQueue) : Option (Task × TaskQueue) :=
  match popMin q.queued with
  | none => none
  | some (t, rest) => some (t, { q with queued := rest })

/-- The worker's completion path (lines 79-93): the success branch bumps
`_completed_count`, the except branch bumps `_failed_count`, and the
`finally` block discards the task's name from `_pending_tasks` in both
cases. -/
def complete (name : String) (success : Bool) (q : TaskQueue) : TaskQueue :=
  { q with
    pending := q.pending.erase name,
    completed := if success then q.completed + 1 else q.completed,
    failed := if success then q.failed else q.failed + 1 }

/-- Number of queued entries carrying a given task name. -/
def countName (name : String) (l : List Task) : Nat :=
  (l.filter (fun t => t.name = name)).length

/-! ## Concrete fixtures used by the counterexamples and bug evaluations -/

/-- A bar on day 10. -/
def barDay10 : Bar := { date := 10, openPrice := 1, high := 1, low := 1, close := 1, volume := 1 }

/-- A bar on day 11. -/
def barDay11 : Bar := { date := 11, openPrice := 2, high := 2, low := 2, close := 2, volume := 2 }

/-- A store holding one bar and a `sync_log` row with the latch not yet set. -/
def latchState : StoreState :=
  { history := [barDay10],
    syncLog := some { last_sync_date := 100, last_data_date := 10,
                      record_count := 1, updated_at := 100,
                      full_sync_completed := false } }

/-- The stored today bar of the overwrite scenario (day 20). -/
def oldTodayBar : Bar := { date := 20, openPrice := 1, high := 1, low := 1, close := 1, volume := 1 }

/-- A stored bar on day 19. -/
def day19Bar : Bar := { date := 19, openPrice := 1, high := 1, low := 1, close := 1, volume := 1 }

/-- The incoming replacement bar for day 20. -/
def newTodayBar : Bar := { date := 20, openPrice := 2, high := 2, low := 2, close := 2, volume := 2 }

/-- A store whose today row (day 20) was last synced at 16:00 of day 20
(minute-of-day 960, after the 15:00 close). -/
def lateSyncState : StoreState :=
  { history := [day19Bar, oldTodayBar],
    syncLog := some { last_sync_date := 20 * 1440 + 960, last_data_date := 20,
                      record_count := 2, updated_at := 20 * 1440 + 960,
                      full_sync_completed := false } }

/-- A bar on day `d` with unit payload. -/
def plainBar (d : Nat) : Bar := { date := d, openPrice := 1, high := 1, low := 1, close := 1, volume := 1 }

/-- A store holding exactly five bars (days 1-5). -/
def fiveBarState : StoreState :=
  { history := [plainBar 1, plainBar 2, plainBar 3, plainBar 4, plainBar 5],
    syncLog := none }

/-! ## C1 — the full-history latch -/

/-- C1 (code bug): the full-history flag is not a one-way latch.
`mark_full_sync_completed` sets it, but the very next `save_stock_data` that
inserts a row rewrites the symbol's `sync_log` row with
`INSERT OR REPLACE` listing only five columns, so `full_sync_completed`
falls back to its table default 0 and `is_full_sync_completed` is false
again.  Evaluated at the failing input: a store with the latch freshly set,
then an upsert of one new bar (day 11) at day 20. -/
theorem save_resets_full_history_latch :
    is_full_sync_completed (mark_full_sync_completed latchState) = true ∧
    (save_stock_data (20 * 1440) [barDay11] (mark_full_sync_completed latchState)).1 = 1 ∧
    is_full_sync_completed
      (save_stock_data (20 * 1440) [barDay11] (mark_full_sync_completed latchState)).2 = false := by
  decide

/-! ## C2 — when the today row is replaced -/

/-- C2 counterexample: `save_stock_data` deletes and replaces the stored
today row whenever today's date occurs in both the input and the store —
the prior row's sync time is not consulted.  Here the prior sync happened at
minute-of-day 960 (16:00, after the 15:00 close), yet an upsert at 16:05 of
the same day still replaces the today row, contradicting the claim that a
today-row written after 15:00 is never replaced. -/
theorem upsert_deletes_today_despite_late_sync :
    lateSyncState.syncLog.map SyncRow.updated_at = some (20 * 1440 + 960) ∧
    900 ≤ (20 * 1440 + 960) % 1440 ∧
    (save_stock_data (20 * 1440 + 965) [newTodayBar] lateSyncState).2.history
      = [day19Bar, newTodayBar] ∧
    oldTodayBar ∉ (save_stock_data (20 * 1440 + 965) [newTodayBar] lateSyncState).2.history := by
  decide

/-! ## C3 — the fallback executor and empty results -/

/-- C3 counterexample: an attempt that returns an empty (zero-length) map is
*not* treated as a failure by `execute` — the loop's only success test is
`result is not None`.  With a first attempt returning the empty list and a
second returning `[1]`, `execute` returns the empty list instead of moving
on. -/
theorem execute_returns_empty_result :
    execute [Except.ok (some ([] : List Nat)), Except.ok (some [1])] = some [] ∧
    some ([] : List Nat) ≠ some [1] := by
  decide

/-! ## C4 — live fusion never happens -/

/-- C4 (code bug): during a trading session, with today's bar absent from
the series, `_merge_realtime_data` still returns the series unchanged and no
synthetic bar is appended: the call
`service.get_realtime_with_fallback(code)` raises `AttributeError` because
`RealtimeQuotationService` defines no such method, and the surrounding
`except` swallows it.  Evaluated at the failing input: trading session on
day 100, series ending at day 99. -/
theorem merge_realtime_never_appends :
    (plainBar 99).date < 100 ∧
    merge_realtime_data true 100 "600519" [plainBar 99] = [plainBar 99] := by
  decide

/-! ## C5 — the warm-path threshold -/

/-- C5 counterexample: for a request of `N = 7` days with 5 bars locally,
the warm path *is* taken (`5 ≥ int(7·0.8) = 5`), although
`⌈0.8·7⌉ = 6 > 5`; the gate truncates rather than rounds up, so the claimed
iff fails at `N = 7`. -/
theorem warm_path_below_ceil_threshold :
    smartWarmPath fiveBarState 7 = true ∧
    (get_stock_data fiveBarState 7).map List.length = some 5 ∧
    5 < specCeilThreshold 7 := by
  decide

/-! ## C7 — provider order on the cold path -/

/-- C7 counterexample: on the cold path the provider order does not depend
on the request size.  For `N = 1000 > 640` the first attempt is still
Tencent with the full 1000-day request (then Eastmoney, then AkShare), not
the high-capacity provider; the log below is produced with every provider
failing. -/
theorem cold_path_order_ignores_request_size :
    (coldPathFetch (fun _ _ => none) 1000).2
      = [(Provider.tencent, 1000), (Provider.tencent, 1000), (Provider.tencent, 1000),
         (Provider.eastmoney, 1000), (Provider.akshare, 1000)] ∧
    (coldPathFetch (fun _ _ => none) 1000).2.head? = some (Provider.tencent, 1000) ∧
    Provider.tencent ≠ Provider.akshare ∧ Provider.tencent ≠ Provider.eastmoney := by
  decide

/-! ## C8 — the last-trading-day cutoff -/

/-- C8 counterexample: at 15:10 of a weekday (day 1 is a Tuesday), which is
after 15:00, `get_last_trading_day` still walks back to the previous day:
the source's cutoff is 15:30 (`now.hour < 15 or (now.hour == 15 and
now.minute < 30)`), not 15:00 as claimed. -/
theorem last_trading_day_at_1510 :
    (1 : Int) % 7 < 5 ∧
    900 < 60 * 15 + 10 ∧
    get_last_trading_day 1 15 10 = 0 := by
  decide

/-! ## C9 — market-prefix routing -/

/-- C9 counterexample: the code `400000` starts with digit 4, so the claim
routes it to `bj`; `get_stock_type` routes it to `sz` (its Beijing prefixes
are only `43/83/87/92`).  Likewise `700000` is routed to `sh` by the code
while the claim's rules would give `sz`. -/
theorem route_400000_and_700000 :
    get_stock_type [4, 0, 0, 0, 0, 0] = Market.sz ∧
    get_stock_type [7, 0, 0, 0, 0, 0] = Market.sh := by
  decide

/-- Reference routing function written from the amended prefix rules
(used only to compare the code against the rules): `bj` for the two-digit
prefixes 43, 83, 87, 92; otherwise `sh` for a first digit 5, 6, 7 or 9 or
the prefixes 110, 113, 118, 132, 204; `sz` for everything else.  The first
three digits determine the answer. -/
def routeByPrefixDigits (d0 d1 d2 : Nat) : Market :=
  if (d0 = 4 ∧ d1 = 3) ∨ (d0 = 8 ∧ d1 = 3) ∨ (d0 = 8 ∧ d1 = 7) ∨ (d0 = 9 ∧ d1 = 2) then
    Market.bj
  else if d0 = 5 ∨ d0 = 6 ∨ d0 = 7 ∨ d0 = 9 ∨
          (d0 = 1 ∧ d1 = 1 ∧ (d2 = 0 ∨ d2 = 3 ∨ d2 = 8)) ∨
          (d0 = 1 ∧ d1 = 3 ∧ d2 = 2) ∨ (d0 = 2 ∧ d1 = 0 ∧ d2 = 4) then Market.sh
  else Market.sz

/-- The Beijing test of `get_stock_type` on a 6-digit code, as a
proposition on the digits. -/
theorem bj_head_test (d0 d1 d2 d3 d4 d5 : Nat) :
    ([4, 3].isPrefixOf [d0, d1, d2, d3, d4, d5] ||
     [8, 3].isPrefixOf [d0, d1, d2, d3, d4, d5] ||
     [8, 7].isPrefixOf [d0, d1, d2, d3, d4, d5] ||
     [9, 2].isPrefixOf [d0, d1, d2, d3, d4, d5]) = true ↔
    ((d0 = 4 ∧ d1 = 3) ∨ (d0 = 8 ∧ d1 = 3) ∨ (d0 = 8 ∧ d1 = 7) ∨ (d0 = 9 ∧ d1 = 2)) := by
  simp only [List.isPrefixOf, Bool.and_true, Bool.or_eq_true, Bool.and_eq_true, beq_iff_eq]
  omega

/-- The Shanghai test of `get_stock_type` on a 6-digit code, as a
proposition on the digits. -/
theorem sh_head_test (d0 d1 d2 d3 d4 d5 : Nat) :
    ([5].isPrefixOf [d0, d1, d2, d3, d4, d5] || [6].isPrefixOf [d0, d1, d2, d3, d4, d5] ||
     [7].isPrefixOf [d0, d1, d2, d3, d4, d5] || [9].isPrefixOf [d0, d1, d2, d3, d4, d5] ||
     [1, 1, 0].isPrefixOf [d0, d1, d2, d3, d4, d5] ||
     [1, 1, 3].isPrefixOf [d0, d1, d2, d3, d4, d5] ||
     [1, 1, 8].isPrefixOf [d0, d1, d2, d3, d4, d5] ||
     [1, 3, 2].isPrefixOf [d0, d1, d2, d3, d4, d5] ||
     [2, 0, 4].isPrefixOf [d0, d1, d2, d3, d4, d5]) = true ↔
    (d0 = 5 ∨ d0 = 6 ∨ d0 = 7 ∨ d0 = 9 ∨
     (d0 = 1 ∧ d1 = 1 ∧ (d2 = 0 ∨ d2 = 3 ∨ d2 = 8)) ∨
     (d0 = 1 ∧ d1 = 3 ∧ d2 = 2) ∨ (d0 = 2 ∧ d1 = 0 ∧ d2 = 4)) := by
  simp only [List.isPrefixOf, Bool.and_true, Bool.or_eq_true, Bool.and_eq_true, beq_iff_eq]
  constructor
  · intro h
    rcases h with ((((((((h | h) | h) | h) | h) | h) | h) | h) | h) <;> omega
  · intro h
    rcases h with rfl | rfl | rfl | rfl | ⟨rfl, rfl, (rfl | rfl | rfl)⟩ |
      ⟨rfl, rfl, rfl⟩ | ⟨rfl, rfl, rfl⟩ <;> simp

/-- C9 amended: on every pure 6-digit code, `get_stock_type` routes by the
*code's* prefix table, which differs from the claimed one: `bj` exactly for
the prefixes 43, 83, 87, 92 (a bare leading 4 or 8 is not enough); `sh`
exactly for a leading 5, 6, 7 or 9 or one of the prefixes 110, 113, 118,
132, 204 (not merely 5/6/9); `sz` for everything else. -/
theorem get_stock_type_prefix_rules (d0 d1 d2 d3 d4 d5 : Nat) :
    get_stock_type [d0, d1, d2, d3, d4, d5] = routeByPrefixDigits d0 d1 d2 := by
  have hne : ([d0, d1, d2, d3, d4, d5] : List Nat) ≠ [] := by simp
  rw [get_stock_type, routeByPrefixDigits, if_neg hne]
  by_cases hbj : ((d0 = 4 ∧ d1 = 3) ∨ (d0 = 8 ∧ d1 = 3) ∨ (d0 = 8 ∧ d1 = 7) ∨ (d0 = 9 ∧ d1 = 2))
  · rw [if_pos ((bj_head_test d0 d1 d2 d3 d4 d5).mpr hbj), if_pos hbj]
  · rw [if_neg (fun h => hbj ((bj_head_test d0 d1 d2 d3 d4 d5).mp h)), if_neg hbj]
    by_cases hsh : (d0 = 5 ∨ d0 = 6 ∨ d0 = 7 ∨ d0 = 9 ∨
        (d0 = 1 ∧ d1 = 1 ∧ (d2 = 0 ∨ d2 = 3 ∨ d2 = 8)) ∨
        (d0 = 1 ∧ d1 = 3 ∧ d2 = 2) ∨ (d0 = 2 ∧ d1 = 0 ∧ d2 = 4))
    · rw [if_pos ((sh_head_test d0 d1 d2 d3 d4 d5).mpr hsh), if_pos hsh]
    · rw [if_neg (fun h => hsh ((sh_head_test d0 d1 d2 d3 d4 d5).mp h)), if_neg hsh]

/-- An attempt that `execute` moves past: the provider raised, or returned
Python `None`. -/
def isFailedAttempt {T : Type} : Except String (Option T) → Bool
  | Except.error _ => true
  | Except.ok none => true
  | Except.ok (some _) => false

/-- `execute` returns `none` when every attempt raises or returns `None`. -/
theorem execute_all_failed {T : Type} :
    ∀ as : List (Except String (Option T)), as.all isFailedAttempt = true → execute as = none := by
  intro as h
  induction as with
  | nil => rfl
  | cons a rest ih =>
    rw [List.all_cons, Bool.and_eq_true] at h
    match a, h.1 with
    | Except.error _, _ => exact ih h.2
    | Except.ok none, _ => exact ih h.2

/-- C3 amended: `execute` returns the result of the first attempt that
neither raises nor returns `None` — including an empty-but-present result
such as a zero-length map, which counts as success; a raising attempt and a
`None`-returning attempt both cause the next attempt to be tried; when every
attempt raises or returns `None` the result is `none`.  (`execute` is a
total function of the attempt list, so it never raises: the source guards
its only other partial operation, the name lookup, with
`i < len(self.names)`.) -/
theorem execute_first_success {T : Type} (e : String) (v : T)
    (rest as : List (Except String (Option T)))
    (hfail : as.all isFailedAttempt = true) :
    execute (Except.error e :: rest) = execute rest ∧
    execute (Except.ok (none : Option T) :: rest) = execute rest ∧
    execute (Except.ok (some v) :: rest) = some v ∧
    execute as = none :=
  ⟨rfl, rfl, rfl, execute_all_failed as hfail⟩

/-- Witness for the amended C3 theorem at a concrete instance: the failing
list raises first and returns `None` second. -/
theorem execute_first_success_witness :
    ([Except.error "boom", Except.ok (none : Option (List Nat))].all isFailedAttempt = true) ∧
    (execute [Except.error "boom", Except.ok (some ([2] : List Nat))]
        = execute [Except.ok (some ([2] : List Nat))] ∧
     execute [Except.ok (none : Option (List Nat)), Except.ok (some [2])]
        = execute [Except.ok (some ([2] : List Nat))] ∧
     execute [Except.ok (some ([1] : List Nat)), Except.ok (some [2])] = some [1] ∧
     execute [Except.error "boom", Except.ok (none : Option (List Nat))] = none) :=
  ⟨by decide,
   execute_first_success "boom" [1] [Except.ok (some [2])]
     [Except.error "boom", Except.ok none] (by decide)⟩

/-- Inserting into the descending sort adds one element. -/
theorem insertDesc_length (b : Bar) (l : List Bar) :
    (insertDesc b l).length = l.length + 1 := by
  induction l with
  | nil => rfl
  | cons c rest ih =>
    rw [insertDesc]
    split_ifs <;> simp [ih]

/-- The descending sort preserves length. -/
theorem sortDesc_length (l : List Bar) : (sortDesc l).length = l.length := by
  induction l with
  | nil => rfl
  | cons b rest ih => rw [sortDesc, insertDesc_length, ih, List.length_cons]

/-- C5 amended: the warm path of `get_stock_data_smart` is taken exactly
when the local store yields at least one bar and at least
`int(days · 0.8) = ⌊4·days/5⌋` bars — the gate truncates; it does not
require the claimed `⌈0.8·days⌉`.  The store yields `min days
(stored row count)` bars because of the `LIMIT days` clause. -/
theorem smartWarmPath_iff (s : StoreState) (days : Nat) :
    smartWarmPath s days = true ↔
      (1 ≤ min days s.history.length ∧
       completenessThreshold days ≤ min days s.history.length) := by
  have hlen : ((sortDesc s.history).take days).length = min days s.history.length := by
    rw [List.length_take, sortDesc_length]
  rw [smartWarmPath, get_stock_data]
  by_cases h : (sortDesc s.history).take days = []
  · rw [if_pos h]
    simp only [h, List.length_nil] at hlen
    simp [← hlen]
  · rw [if_neg h]
    have h1 : 1 ≤ min days s.history.length := by
      rcases Nat.eq_zero_or_pos (min days s.history.length) with h0 | h0
      · exact absurd (List.length_eq_zero.mp (hlen.trans h0)) h
      · exact h0
    simp only [List.length_reverse, hlen]
    simp [h1, decide_eq_true_eq]

/-- C7 amended: on the cold/insufficient path of `get_stock_data_smart` the
provider order is *fixed* and does not depend on the request size: Tencent
(asked for the full `days`) is always attempted first — `MAX_RETRIES` times
when it keeps failing — then Eastmoney capped at `min(days, 3000)`, then
AkShare as the final fallback.  The size-dependent preference the claim
describes lives in `_fetch_full_history` instead: AkShare first for
`days > 640`, Tencent first otherwise. -/
theorem provider_order_by_request_size
    (oracle oracle' : Provider → Nat → Option (List Bar)) (days : Nat)
    (hfail : ∀ p d, oracle' p d = none) :
    (coldPathFetch oracle days).2.head? = some (Provider.tencent, days) ∧
    (coldPathFetch oracle' days).2 =
      [(Provider.tencent, days), (Provider.tencent, days), (Provider.tencent, days),
       (Provider.eastmoney, min days 3000), (Provider.akshare, days)] ∧
    (fetchFullHistory oracle days).2.head? =
      some (if 640 < days then (Provider.akshare, days) else (Provider.tencent, days)) := by
  have hfne : ∀ p d, fetchNonEmpty oracle' p d = none := by
    intro p d
    simp [fetchNonEmpty, hfail]
  refine ⟨?_, ?_, ?_⟩
  · show (coldPathFetch oracle days).2.head? = some (Provider.tencent, days)
    simp only [coldPathFetch, MAX_RETRIES, tencentRetryLoop]
    cases h1 : fetchNonEmpty oracle Provider.tencent days with
    | some l => simp [h1]
    | none =>
      cases h2 : fetchNonEmpty oracle Provider.eastmoney (min days 3000) with
      | some l => simp [h1, h2]
      | none =>
        cases h3 : fetchNonEmpty oracle Provider.akshare days with
        | some l => simp [h1, h2, h3]
        | none => simp [h1, h2, h3]
  · simp [coldPathFetch, MAX_RETRIES, tencentRetryLoop, hfne]
  · rw [fetchFullHistory]
    split_ifs with h
    · cases h1 : oracle Provider.akshare days with
      | some l => simp [h, h1]
      | none =>
        cases h2 : oracle Provider.tencent 640 with
        | some l => simp [h, h1, h2]
        | none => simp [h, h1, h2]
    · cases h1 : oracle Provider.tencent days with
      | some l => simp [h, h1]
      | none =>
        cases h2 : oracle Provider.akshare days with
        | some l => simp [h, h1, h2]
        | none => simp [h, h1, h2]

/-- Witness for the amended C7 theorem at a concrete instance: a 1000-day
request against an oracle whose every call fails. -/
theorem provider_order_by_request_size_witness :
    (∀ p d, (fun (_ : Provider) (_ : Nat) => (none : Option (List Bar))) p d = none) ∧
    ((coldPathFetch (fun _ _ => some [plainBar 1]) 1000).2.head?
        = some (Provider.tencent, 1000) ∧
     (coldPathFetch (fun _ _ => none) 1000).2 =
       [(Provider.tencent, 1000), (Provider.tencent, 1000), (Provider.tencent, 1000),
        (Provider.eastmoney, min 1000 3000), (Provider.akshare, 1000)] ∧
     (fetchFullHistory (fun _ _ => some [plainBar 1]) 1000).2.head? =
       some (if 640 < 1000 then (Provider.akshare, 1000) else (Provider.tencent, 1000))) :=
  ⟨fun _ _ => rfl,
   provider_order_by_request_size (fun _ _ => some [plainBar 1]) (fun _ _ => none) 1000
     (fun _ _ => rfl)⟩

/-- On a weekday start the weekend-skipping loop stops immediately,
whatever its fuel. -/
theorem skipWeekendFuel_stop {d : Int} (h : d % 7 < 5) :
    ∀ n, skipWeekendFuel n d = d := by
  intro n
  cases n with
  | zero => rfl
  | succ m => rw [skipWeekendFuel, if_neg (by omega)]

/-- On a weekend start the loop takes one backwards step. -/
theorem skipWeekendFuel_step {d : Int} (h : 5 ≤ d % 7) (n : Nat) :
    skipWeekendFuel (n + 1) d = skipWeekendFuel n (d - 1) := by
  rw [skipWeekendFuel, if_pos h]

/-- Closed form of the weekend-skipping loop: Saturday steps back one day,
Sunday two, weekdays stay — so fuel 7 reproduces the source's unbounded
`while` loop exactly. -/
theorem skipWeekendFuel_closed (d : Int) :
    skipWeekendFuel 7 d =
      if d % 7 = 5 then d - 1 else if d % 7 = 6 then d - 2 else d := by
  have h0 : 0 ≤ d % 7 := Int.emod_nonneg d (by norm_num)
  have h7 : d % 7 < 7 := Int.emod_lt_of_pos d (by norm_num)
  by_cases h5 : d % 7 = 5
  · have e1 : (7 : Nat) = 6 + 1 := rfl
    rw [e1, skipWeekendFuel_step (by omega), if_pos h5,
        skipWeekendFuel_stop (by omega)]
  · by_cases h6 : d % 7 = 6
    · have e1 : (7 : Nat) = 6 + 1 := rfl
      have e2 : (6 : Nat) = 5 + 1 := rfl
      rw [e1, skipWeekendFuel_step (by omega), e2, skipWeekendFuel_step (by omega),
          if_neg h5, if_pos h6, skipWeekendFuel_stop (by omega)]
      ring
    · rw [skipWeekendFuel_stop (by omega), if_neg h5, if_neg h6]

/-- C8 amended: `get_last_trading_day` returns a weekday; it returns today
exactly when the instant is at or *after 15:30* (not 15:00) on a weekday;
in every other case it returns an earlier day, and no day strictly between
the result and today is a weekday — it walks back to the most recent
earlier weekday. -/
theorem last_trading_day_characterization (day d : Int) (hour minute : Nat)
    (hh : hour < 24) (hm : minute < 60) :
    (get_last_trading_day day hour minute) % 7 < 5 ∧
    (get_last_trading_day day hour minute = day ↔
      (930 ≤ 60 * hour + minute ∧ day % 7 < 5)) ∧
    (get_last_trading_day day hour minute ≠ day →
      get_last_trading_day day hour minute < day) ∧
    (get_last_trading_day day hour minute < d → d < day → 5 ≤ d % 7) := by
  rw [get_last_trading_day]
  by_cases hc : (hour < 15 ∨ (hour = 15 ∧ minute < 30))
  · rw [if_pos hc, skipWeekendFuel_closed]
    split_ifs with h5 h6 <;>
      refine ⟨by omega, ?_, by omega, by omega⟩ <;>
      constructor <;> intro h <;> omega
  · rw [if_neg hc, skipWeekendFuel_closed]
    split_ifs with h5 h6 <;>
      refine ⟨by omega, ?_, by omega, by omega⟩ <;>
      constructor <;> intro h <;> omega

/-- Witness for the amended C8 theorem at a concrete instant: Friday
(day 4), 16:00, checking day 3 as the in-between day. -/
theorem last_trading_day_characterization_witness :
    ((16 : Nat) < 24 ∧ (0 : Nat) < 60) ∧
    ((get_last_trading_day 4 16 0) % 7 < 5 ∧
     (get_last_trading_day 4 16 0 = 4 ↔ (930 ≤ 60 * 16 + 0 ∧ (4 : Int) % 7 < 5)) ∧
     (get_last_trading_day 4 16 0 ≠ 4 → get_last_trading_day 4 16 0 < 4) ∧
     (get_last_trading_day 4 16 0 < 3 → (3 : Int) < 4 → 5 ≤ (3 : Int) % 7)) :=
  ⟨⟨by decide, by decide⟩,
   last_trading_day_characterization 4 3 16 0 (by decide) (by decide)⟩

/-- A date survives the input deduplication exactly when the input holds it
and the accumulator does not. -/
theorem dedupByDate_dates (l : List Bar) :
    ∀ (seen : List Nat) (d : Nat),
      d ∈ (dedupByDate l seen).map Bar.date ↔ (d ∈ l.map Bar.date ∧ d ∉ seen) := by
  induction l with
  | nil => intro seen d; simp [dedupByDate]
  | cons b rest ih =>
    intro seen d
    rw [dedupByDate]
    by_cases hb : b.date ∈ seen
    · rw [if_pos hb]
      rw [ih seen d]
      simp only [List.map_cons, List.mem_cons]
      constructor
      · rintro ⟨hd, hs⟩
        exact ⟨Or.inr hd, hs⟩
      · rintro ⟨hd | hd, hs⟩
        · exact absurd (hd ▸ hb) hs
        · exact ⟨hd, hs⟩
    · rw [if_neg hb]
      simp only [List.map_cons, List.mem_cons]
      constructor
      · rintro (hd | hd)
        · exact ⟨Or.inl hd, hd ▸ hb⟩
        · rw [ih _ d] at hd
          simp only [List.mem_cons] at hd
          exact ⟨Or.inr hd.1, fun hs => hd.2 (Or.inr hs)⟩
      · rintro ⟨hd | hd, hs⟩
        · exact Or.inl hd
        · by_cases hbd : d = b.date
          · exact Or.inl hbd
          · refine Or.inr ?_
            rw [ih _ d]
            simp only [List.mem_cons]
            exact ⟨hd, fun h => h.elim hbd hs⟩

/-- Every date of a frame is bounded by `maxDate`. -/
theorem mem_le_maxDate {d : Nat} {l : List Bar} (h : d ∈ l.map Bar.date) :
    d ≤ maxDate l := by
  unfold maxDate
  induction l with
  | nil => simp at h
  | cons b rest ih =>
    simp only [List.map_cons, List.mem_cons] at h
    simp only [List.map_cons, List.foldr_cons]
    rcases h with h | h
    · omega
    · have := ih h
      omega

/-- `maxDate` is below any bound dominating all dates of the frame. -/
theorem maxDate_le {l : List Bar} {bound : Nat}
    (h : ∀ d ∈ l.map Bar.date, d ≤ bound) : maxDate l ≤ bound := by
  unfold maxDate
  induction l with
  | nil => simp
  | cons b rest ih =>
    simp only [List.map_cons, List.foldr_cons]
    simp only [List.map_cons, List.mem_cons] at h
    have h1 := h b.date (Or.inl rfl)
    have h2 : ∀ d ∈ rest.map Bar.date, d ≤ bound := fun d hd => h d (Or.inr hd)
    have := ih h2
    omega

/-- Deduplication does not change the maximal date of the input frame. -/
theorem maxDate_dedup (l : List Bar) : maxDate (dedupByDate l []) = maxDate l := by
  rcases l with _ | ⟨b, rest⟩
  · rfl
  · apply Nat.le_antisymm
    · apply maxDate_le
      intro d hd
      rw [dedupByDate_dates] at hd
      exact mem_le_maxDate hd.1
    · apply maxDate_le
      intro d hd
      apply mem_le_maxDate
      rw [dedupByDate_dates]
      exact ⟨hd, by simp⟩

/-- A frame without a `d`-dated row has an empty `d`-filter. -/
theorem filter_eq_nil_of_not_mem_dates (l : List Bar) (d : Nat)
    (hd : d ∉ l.map Bar.date) : l.filter (fun b => b.date = d) = [] := by
  apply List.filter_eq_nil_iff.mpr
  intro b hb
  simp only [decide_eq_true_eq]
  intro hbd
  exact hd (List.mem_map.mpr ⟨b, hb, hbd⟩)

/-- The today-delete leaves no today-dated row behind. -/
theorem filter_ne_filter_today (l : List Bar) (today : Nat) :
    (l.filter (fun b => b.date ≠ today)).filter (fun b => b.date = today) = [] := by
  rw [List.filter_filter]
  apply List.filter_eq_nil_iff.mpr
  intro b hb
  simp only [Bool.and_eq_true, decide_eq_true_eq]
  intro ⟨hbt, hbn⟩
  exact hbn hbt

/-- The today-delete leaves every other date's rows exactly as they were. -/
theorem filter_ne_filter_eq (l : List Bar) (today e : Nat) (he : e ≠ today) :
    (l.filter (fun b => b.date ≠ today)).filter (fun b => b.date = e)
      = l.filter (fun b => b.date = e) := by
  rw [List.filter_filter]
  apply List.filter_congr
  intro b hb
  by_cases hbe : b.date = e
  · simp [hbe, he]
  · simp [hbe]

/-- After the today-delete, `today` is gone from the date set. -/
theorem not_mem_dates_filter_ne (l : List Bar) (today : Nat) :
    today ∉ (l.filter (fun b => b.date ≠ today)).map Bar.date := by
  intro hmem
  rcases List.mem_map.mp hmem with ⟨c, hc, hcd⟩
  have := List.mem_filter.mp hc
  rw [decide_eq_true_eq] at this
  exact this.2 hcd

/-- The today-delete keeps every other present date in the date set. -/
theorem mem_dates_filter_ne {l : List Bar} {e : Nat} (today : Nat)
    (hee : e ∈ l.map Bar.date) (he : e ≠ today) :
    e ∈ (l.filter (fun b => b.date ≠ today)).map Bar.date := by
  rcases List.mem_map.mp hee with ⟨c, hc, hcd⟩
  refine List.mem_map.mpr ⟨c, ?_, hcd⟩
  exact List.mem_filter.mpr ⟨hc, by rw [decide_eq_true_eq, hcd]; exact he⟩

/-- The insert filter admits no row whose date is already present. -/
theorem upsertNewData_filter_of_mem (df' hist1 : List Bar) (e : Nat)
    (he : e ∈ hist1.map Bar.date) :
    (upsertNewData df' hist1).filter (fun b => b.date = e) = [] := by
  rw [upsertNewData, List.filter_filter]
  apply List.filter_eq_nil_iff.mpr
  intro b hb
  simp only [Bool.and_eq_true, decide_eq_true_eq]
  intro ⟨hbe, hbn⟩
  exact hbn (by rw [hbe]; exact he)

/-- The insert filter yields no row of a date absent from the batch. -/
theorem upsertNewData_filter_of_not_batch (df' hist1 : List Bar) (d : Nat)
    (hd : d ∉ df'.map Bar.date) :
    (upsertNewData df' hist1).filter (fun b => b.date = d) = [] := by
  rw [upsertNewData, List.filter_filter]
  apply List.filter_eq_nil_iff.mpr
  intro b hb
  simp only [Bool.and_eq_true, decide_eq_true_eq]
  intro ⟨hbd, _⟩
  exact hd (List.mem_map.mpr ⟨b, hb, hbd⟩)

/-- For a date not already present, the insert filter passes exactly the
batch's rows of that date. -/
theorem upsertNewData_filter_of_not_mem (df' hist1 : List Bar) (d : Nat)
    (hd : d ∉ hist1.map Bar.date) :
    (upsertNewData df' hist1).filter (fun b => b.date = d)
      = df'.filter (fun b => b.date = d) := by
  rw [upsertNewData, List.filter_filter]
  apply List.filter_congr
  intro b hb
  by_cases hbd : b.date = d
  · simp [hbd, hd]
  · simp [hbd]

/-- For every nonempty input, the stored rows after `save_stock_data` are
the today-repaired rows followed by the inserted rows (in the empty-insert
early return the appended list is empty, so the equation covers both
branches). -/
theorem save_history (now : Nat) (df : List Bar) (s : StoreState) (hdf : df ≠ []) :
    (save_stock_data now df s).2.history =
      upsertHist1 (now / 1440) (dedupByDate df []) s.history ++
      upsertNewData (dedupByDate df [])
        (upsertHist1 (now / 1440) (dedupByDate df []) s.history) := by
  rw [save_stock_data, if_neg hdf]
  by_cases hnd : upsertNewData (dedupByDate df [])
      (upsertHist1 (now / 1440) (dedupByDate df []) s.history) = []
  · simp only [hnd, if_pos, reduceIte]
    rw [List.append_nil]
  · simp only [hnd, if_neg, reduceIte]

/-- C2 amended: `save_stock_data` deletes and replaces the stored today
rows *exactly when* today's date appears in both the (deduplicated) input
batch and the existing rows — regardless of the prior row's sync time.
For every upsert: when today is in both, the result's today rows are
exactly the input's; when today is missing from the batch, the stored
today rows are untouched; when today is absent from the store, nothing
pre-existing is deleted and the result's today rows are the batch's; every
stored row of another date survives, and the rows of any other
already-present date are left exactly as they were. -/
theorem upsert_today_semantics (now : Nat) (df : List Bar) (s : StoreState) :
    ((now / 1440 ∈ (dedupByDate df []).map Bar.date ∧
      now / 1440 ∈ s.history.map Bar.date) →
      (save_stock_data now df s).2.history.filter (fun b => b.date = now / 1440)
        = (dedupByDate df []).filter (fun b => b.date = now / 1440)) ∧
    (now / 1440 ∉ (dedupByDate df []).map Bar.date →
      (save_stock_data now df s).2.history.filter (fun b => b.date = now / 1440)
        = s.history.filter (fun b => b.date = now / 1440)) ∧
    (now / 1440 ∉ s.history.map Bar.date →
      (save_stock_data now df s).2.history.filter (fun b => b.date = now / 1440)
        = (dedupByDate df []).filter (fun b => b.date = now / 1440)) ∧
    (∀ b ∈ s.history, b.date ≠ now / 1440 → b ∈ (save_stock_data now df s).2.history) ∧
    (∀ e, e ≠ now / 1440 → e ∈ s.history.map Bar.date →
      (save_stock_data now df s).2.history.filter (fun b => b.date = e)
        = s.history.filter (fun b => b.date = e)) := by
  by_cases hdf : df = []
  · subst hdf
    have hsv : save_stock_data now [] s = (0, s) := by
      rw [save_stock_data]
      simp
    rw [hsv]
    refine ⟨?_, ?_, ?_, ?_, ?_⟩
    · rintro ⟨h1, -⟩
      simp [dedupByDate] at h1
    · intro _
      rfl
    · intro h3
      show s.history.filter (fun b => b.date = now / 1440)
        = (dedupByDate [] []).filter (fun b => b.date = now / 1440)
      rw [filter_eq_nil_of_not_mem_dates s.history _ h3]
      rfl
    · intro b hb _
      exact hb
    · intro e _ _
      rfl
  · rw [save_history now df s hdf]
    by_cases hdel : (now / 1440 ∈ s.history.map Bar.date ∧
        now / 1440 ∈ (dedupByDate df []).map Bar.date)
    · rw [upsertHist1, if_pos hdel]
      refine ⟨?_, ?_, ?_, ?_, ?_⟩
      · rintro ⟨-, -⟩
        rw [List.filter_append, filter_ne_filter_today, List.nil_append]
        exact upsertNewData_filter_of_not_mem _ _ _ (not_mem_dates_filter_ne s.history _)
      · intro h2x
        exact absurd hdel.2 h2x
      · intro h3x
        exact absurd hdel.1 h3x
      · intro b hb hbt
        exact List.mem_append_left _
          (List.mem_filter.mpr ⟨hb, by rw [decide_eq_true_eq]; exact hbt⟩)
      · intro e he hee
        rw [List.filter_append,
            upsertNewData_filter_of_mem _ _ _ (mem_dates_filter_ne _ hee he),
            List.append_nil]
        exact filter_ne_filter_eq s.history _ e he
    · rw [upsertHist1, if_neg hdel]
      refine ⟨?_, ?_, ?_, ?_, ?_⟩
      · rintro ⟨h1a, h1b⟩
        exact absurd ⟨h1b, h1a⟩ hdel
      · intro h2x
        rw [List.filter_append, upsertNewData_filter_of_not_batch _ _ _ h2x,
            List.append_nil]
      · intro h3x
        rw [List.filter_append, filter_eq_nil_of_not_mem_dates s.history _ h3x,
            List.nil_append]
        exact upsertNewData_filter_of_not_mem _ _ _ h3x
      · intro b hb _
        exact List.mem_append_left _ hb
      · intro e he hee
        rw [List.filter_append, upsertNewData_filter_of_mem _ _ _ hee,
            List.append_nil]

/-- Witness for the amended C2 theorem: the late-synced store of the
counterexample, upserting a fresh today bar at 16:05 of day 20 — the
delete-and-replace condition holds there, so the first conjunct applies
non-vacuously. -/
theorem upsert_today_semantics_witness :
    ((20 * 1440 + 965) / 1440 ∈
        (dedupByDate [newTodayBar] []).map Bar.date ∧
     (20 * 1440 + 965) / 1440 ∈ lateSyncState.history.map Bar.date) ∧
    ((save_stock_data (20 * 1440 + 965) [newTodayBar] lateSyncState).2.history.filter
        (fun b => b.date = (20 * 1440 + 965) / 1440)
      = (dedupByDate [newTodayBar] []).filter
          (fun b => b.date = (20 * 1440 + 965) / 1440)) :=
  ⟨⟨by decide, by decide⟩,
   (upsert_today_semantics (20 * 1440 + 965) [newTodayBar] lateSyncState).1
     ⟨by decide, by decide⟩⟩

/-- C10: whenever `save_stock_data` inserts at least one new row, the
rewritten `sync_log` row's `last_data_date` is the maximal date *of the
input batch* — so when the batch's maximal date is below the store's
maximal date (a pure backfill batch), `last_data_date` ends up earlier than
the store's actual latest bar. -/
theorem sync_log_last_data_date_from_batch (now : Nat) (df : List Bar) (s : StoreState)
    (h : 1 ≤ (save_stock_data now df s).1) :
    ∃ row, (save_stock_data now df s).2.syncLog = some row ∧
      row.last_data_date = maxDate df ∧
      (maxDate df < maxDate (save_stock_data now df s).2.history →
        row.last_data_date < maxDate (save_stock_data now df s).2.history) := by
  by_cases hdf : df = []
  · rw [save_stock_data, if_pos hdf] at h
    simp at h
  · by_cases hnd : upsertNewData (dedupByDate df [])
        (upsertHist1 (now / 1440) (dedupByDate df []) s.history) = []
    · rw [save_stock_data, if_neg hdf] at h
      simp only [hnd, if_pos] at h
      simp at h
    · rw [save_stock_data, if_neg hdf]
      simp only [hnd, if_neg, reduceIte]
      refine ⟨_, rfl, ?_, ?_⟩
      · exact maxDate_dedup df
      · intro hlt
        rw [maxDate_dedup df]
        exact hlt

/-- Witness for the C10 theorem: upserting a single old bar (day 0) into a
store whose latest bar is day 5 — `last_data_date` becomes 0, earlier than
the store's latest bar. -/
theorem sync_log_last_data_date_from_batch_witness :
    1 ≤ (save_stock_data (20 * 1440) [plainBar 0] fiveBarState).1 ∧
    (∃ row, (save_stock_data (20 * 1440) [plainBar 0] fiveBarState).2.syncLog = some row ∧
      row.last_data_date = maxDate [plainBar 0] ∧
      (maxDate [plainBar 0] <
          maxDate (save_stock_data (20 * 1440) [plainBar 0] fiveBarState).2.history →
        row.last_data_date <
          maxDate (save_stock_data (20 * 1440) [plainBar 0] fiveBarState).2.history)) :=
  ⟨by decide,
   sync_log_last_data_date_from_batch (20 * 1440) [plainBar 0] fiveBarState (by decide)⟩

/-- Queue entries named `name` in the empty queue. -/
theorem countName_nil (name : String) : countName name [] = 0 := rfl

/-- Unfolding `countName` over a cons cell. -/
theorem countName_cons (name : String) (a : Task) (l : List Task) :
    countName name (a :: l) = (if a.name = name then 1 else 0) + countName name l := by
  rw [countName, countName, List.filter_cons]
  split_ifs with h1 h2 h3 <;> simp_all
  omega

/-- `countName` distributes over append. -/
theorem countName_append (name : String) (l1 l2 : List Task) :
    countName name (l1 ++ l2) = countName name l1 + countName name l2 := by
  rw [countName, countName, countName, List.filter_append, List.length_append]

/-- The heap pop fails exactly on the empty queue. -/
theorem popMin_eq_none (l : List Task) : popMin l = none ↔ l = [] := by
  cases l with
  | nil => simp [popMin]
  | cons t rest =>
    rw [popMin]
    cases popMin rest with
    | none => simp
    | some p =>
      rcases p with ⟨m, rest'⟩
      simp only
      split_ifs <;> simp

/-- Popping the minimum removes exactly one entry, so the per-name entry
count drops by one when the popped task carries the name. -/
theorem popMin_countName (name : String) :
    ∀ (l rest : List Task) (t : Task), popMin l = some (t, rest) →
      countName name l = (if t.name = name then 1 else 0) + countName name rest := by
  intro l
  induction l with
  | nil => intro rest t h; simp [popMin] at h
  | cons a l' ih =>
    intro rest t h
    rw [popMin] at h
    cases hp : popMin l' with
    | none =>
      rw [hp] at h
      simp only [Option.some.injEq, Prod.mk.injEq] at h
      have hl' : l' = [] := (popMin_eq_none l').mp hp
      rw [← h.1, ← h.2, hl', countName_cons]
    | some p =>
      rcases p with ⟨m, rest'⟩
      rw [hp] at h
      simp only at h
      split_ifs at h with hcond
      · simp only [Option.some.injEq, Prod.mk.injEq] at h
        rw [← h.1, ← h.2, countName_cons]
      · simp only [Option.some.injEq, Prod.mk.injEq] at h
        have ihm := ih rest' m hp
        rw [← h.1, ← h.2, countName_cons, countName_cons, ihm]
        omega

/-- C6: a second `submit` with the name of a task that is still queued is
silently dropped (the state is unchanged) and exactly one queue entry with
that name exists; while that task is running (dequeued but not completed)
a resubmission is still dropped and the queue holds no entry with the name;
completion — successful or failed alike — removes the name from the
pending set, after which a new submission with the name is accepted and
enqueues exactly one entry again. -/
theorem submit_dedup_single_execution (q : TaskQueue) (name : String) (p p' p'' : Nat)
    (ok : Bool) (t : Task) (q2 : TaskQueue)
    (h1 : name ∉ q.pending) (h2 : countName name q.queued = 0)
    (hd : dequeue (submit p name q) = some (t, q2)) (ht : t.name = name) :
    countName name (submit p name q).queued = 1 ∧
    submit p' name (submit p name q) = submit p name q ∧
    countName name q2.queued = 0 ∧
    submit p' name q2 = q2 ∧
    name ∉ (complete name ok q2).pending ∧
    name ∈ (submit p'' name (complete name ok q2)).pending ∧
    countName name (submit p'' name (complete name ok q2)).queued = 1 := by
  have hq1 : submit p name q =
      { q with
        pending := name :: q.pending,
        counter := q.counter + 1,
        queued := q.queued ++ [{ priority := p, counter := q.counter + 1, name := name }] } := by
    rw [submit, if_neg h1]
  have hcount1 : countName name (submit p name q).queued = 1 := by
    rw [hq1]
    simp only [countName_append, h2]
    simp [countName_cons, countName_nil]
  have hpend1 : name ∈ (submit p name q).pending := by
    rw [hq1]
    exact List.mem_cons_self name q.pending
  rw [dequeue] at hd
  cases hpm : popMin (submit p name q).queued with
  | none => rw [hpm] at hd; simp at hd
  | some pr =>
    rcases pr with ⟨t', rest⟩
    rw [hpm] at hd
    simp only [Option.some.injEq, Prod.mk.injEq] at hd
    have ht' : t' = t := hd.1
    have hq2 : q2 = { submit p name q with queued := rest } := hd.2.symm
    have hrest : countName name rest = 0 := by
      have := popMin_countName name (submit p name q).queued rest t' hpm
      rw [ht', ht] at this
      rw [if_pos rfl] at this
      omega
    have hq2pend : q2.pending = name :: q.pending := by
      rw [hq2, hq1]
    have hq2queued : q2.queued = rest := by rw [hq2]
    refine ⟨hcount1, ?_, ?_, ?_, ?_, ?_, ?_⟩
    · rw [submit, if_pos hpend1]
    · rw [hq2queued]; exact hrest
    · rw [submit, if_pos (by rw [hq2pend]; exact List.mem_cons_self name q.pending)]
    · show name ∉ (complete name ok q2).pending
      rw [complete]
      simp only [hq2pend]
      rw [List.erase_cons_head]
      exact h1
    · rw [submit]
      have hnp : name ∉ (complete name ok q2).pending := by
        rw [complete]
        simp only [hq2pend]
        rw [List.erase_cons_head]
        exact h1
      rw [if_neg hnp]
      exact List.mem_cons_self name _
    · have hnp : name ∉ (complete name ok q2).pending := by
        rw [complete]
        simp only [hq2pend]
        rw [List.erase_cons_head]
        exact h1
      rw [submit, if_neg hnp]
      simp only [countName_append]
      have hcq : (complete name ok q2).queued = rest := by
        rw [complete, hq2queued]
      rw [hcq, hrest]
      simp [countName_cons, countName_nil]

/-- The state reached after submitting one task named `incr-600519` to the
fresh queue and dequeuing it (the task is running, its name still
pending). -/
def runningQueue : TaskQueue :=
  { pending := ["incr-600519"], queued := [], counter := 1, completed := 0, failed := 0 }

/-- Witness for the C6 theorem on the fresh queue: one submission, its
dequeue, a successful completion. -/
theorem submit_dedup_single_execution_witness :
    (("incr-600519" ∉ TaskQueue.empty.pending) ∧
     countName "incr-600519" TaskQueue.empty.queued = 0 ∧
     dequeue (submit 1 "incr-600519" TaskQueue.empty)
       = some ({ priority := 1, counter := 1, name := "incr-600519" }, runningQueue) ∧
     ({ priority := 1, counter := 1, name := "incr-600519" } : Task).name = "incr-600519") ∧
    (countName "incr-600519" (submit 1 "incr-600519" TaskQueue.empty).queued = 1 ∧
     submit 1 "incr-600519" (submit 1 "incr-600519" TaskQueue.empty)
       = submit 1 "incr-600519" TaskQueue.empty ∧
     countName "incr-600519" runningQueue.queued = 0 ∧
     submit 1 "incr-600519" runningQueue = runningQueue ∧
     "incr-600519" ∉ (complete "incr-600519" true runningQueue).pending ∧
     "incr-600519" ∈ (submit 1 "incr-600519"
        (complete "incr-600519" true runningQueue)).pending ∧
     countName "incr-600519" (submit 1 "incr-600519"
        (complete "incr-600519" true runningQueue)).queued = 1) :=
  ⟨⟨by decide, by decide, by decide, by decide⟩,
   submit_dedup_single_execution TaskQueue.empty "incr-600519" 1 1 1 true
     { priority := 1, counter := 1, name := "incr-600519" } runningQueue
     (by decide) (by decide) (by decide) (by decide)⟩

end ZStock
